import Mathlib

/-!
Shallow embedding of the Unit Allocation & Rental State Tracking subsystem
of `app.py` (Flask + SQLite).  The three tables `walkie_talkie_units`,
`rental` and `returns_log` are modelled as Lean lists in insertion order;
the SQLite `AUTOINCREMENT` primary keys of `rental` and `equipment` are
modelled by the counters `next_rental_id` and `next_bundle_id` in the
database state.  SQL string functions `LOWER`, `UPPER`, `TRIM` are
modelled by their ASCII semantics (SQLite's `TRIM` strips space
characters only).
-/

namespace HjncRental

/-- SQL `LOWER`: ASCII lower-casing, as in SQLite. -/
def sqlLower (s : String) : String := ⟨s.data.map Char.toLower⟩

/-- SQL `UPPER`: ASCII upper-casing, as in SQLite. -/
def sqlUpper (s : String) : String := ⟨s.data.map Char.toUpper⟩

/-- Strip leading space characters from a character list. -/
def dropSpaces : List Char → List Char
  | [] => []
  | c :: cs => if c = ' ' then dropSpaces cs else c :: cs

/-- SQLite `TRIM` with the default character set: strip space characters
from both ends of the string. -/
def sqlTrim (s : String) : String :=
  ⟨(dropSpaces (dropSpaces s.data).reverse).reverse⟩

/-- A row of the `walkie_talkie_units` table (the unit registry). -/
structure WalkieUnit where
  unit_no : String
  serial_no : String
  item_name : Option String
  bundle_id : Option Nat
deriving DecidableEq

/-- A row of the `rental` table (the rental ledger). -/
structure RentalEntry where
  id : Nat
  user_name : String
  dept : String
  phone : String
  start_date : String
  end_date : String
  signature : String
  serial_no : String
  qty : Nat
  rental_date : String
  status : String
  unit_no : String
deriving DecidableEq

/-- A row of the `returns_log` table (the return audit trail). -/
structure ReturnsLogEntry where
  rental_id : Nat
  dept : String
  returner_name : String
  returner_phone : String
  returned_at : String
deriving DecidableEq

/-- The persistent state: the three tables together with the next
auto-increment ids handed out for `rental.id` and the `equipment`
bundle row id. -/
structure DB where
  units : List WalkieUnit
  rental : List RentalEntry
  returns_log : List ReturnsLogEntry
  next_rental_id : Nat
  next_bundle_id : Nat
deriving DecidableEq

/-- The renter information collected by `/rental_info` and stored in the
session before a claim is submitted. -/
structure RenterInfo where
  user_name : String
  dept : String
  phone : String
  start_date : String
  end_date : String
  signature : String
deriving DecidableEq

/-! ## Allocation engine read path (`_load_inventory` in `rental_items`) -/

/-- `TRIM(UPPER(x))`, the normalisation applied to `unit_no` on both sides
of the join in `_load_inventory`. -/
def normUnitNo (s : String) : String := sqlTrim (sqlUpper s)

/-- The join condition of `_load_inventory`:
`TRIM(UPPER(r.unit_no)) = TRIM(UPPER(u.unit_no)) AND LOWER(r.status) = 'rented'`. -/
def matchesRented (u : WalkieUnit) (r : RentalEntry) : Bool :=
  normUnitNo r.unit_no == normUnitNo u.unit_no && sqlLower r.status == "rented"

/-- Lexicographic comparison of character lists by code point, the
SQLite BINARY collation used by `ORDER BY` on TEXT columns. -/
def charListLe : List Char → List Char → Bool
  | [], _ => true
  | _ :: _, [] => false
  | a :: as, b :: bs =>
    if a.toNat < b.toNat then true
    else if b.toNat < a.toNat then false
    else charListLe as bs

/-- String comparison under the SQLite BINARY collation. -/
def sqlStrLe (a b : String) : Bool := charListLe a.data b.data

theorem charListLe_total : ∀ x y : List Char,
    charListLe x y = true ∨ charListLe y x = true := by
  intro x
  induction x with
  | nil => intro y; left; rfl
  | cons a as ih =>
    intro y
    cases y with
    | nil => right; rfl
    | cons b bs =>
      simp only [charListLe]
      rcases Nat.lt_trichotomy a.toNat b.toNat with h | h | h
      · left; simp [h]
      · have h1 : ¬ a.toNat < b.toNat := by omega
        have h2 : ¬ b.toNat < a.toNat := by omega
        simpa [h1, h2] using ih bs
      · right; simp [h]

theorem charListLe_trans : ∀ x y z : List Char,
    charListLe x y = true → charListLe y z = true → charListLe x z = true := by
  intro x
  induction x with
  | nil => intro y z _ _; rfl
  | cons a as ih =>
    intro y z hxy hyz
    cases y with
    | nil => simp [charListLe] at hxy
    | cons b bs =>
      cases z with
      | nil => simp [charListLe] at hyz
      | cons c cs =>
        simp only [charListLe] at hxy hyz ⊢
        have Hxy : a.toNat < b.toNat ∨ (a.toNat = b.toNat ∧ charListLe as bs = true) := by
          by_cases hab : a.toNat < b.toNat
          · exact Or.inl hab
          · by_cases hba : b.toNat < a.toNat
            · simp [hab, hba] at hxy
            · exact Or.inr ⟨by omega, by simpa [hab, hba] using hxy⟩
        have Hyz : b.toNat < c.toNat ∨ (b.toNat = c.toNat ∧ charListLe bs cs = true) := by
          by_cases hbc : b.toNat < c.toNat
          · exact Or.inl hbc
          · by_cases hcb : c.toNat < b.toNat
            · simp [hbc, hcb] at hyz
            · exact Or.inr ⟨by omega, by simpa [hbc, hcb] using hyz⟩
        rcases Hxy with h1 | ⟨e1, r1⟩ <;> rcases Hyz with h2 | ⟨e2, r2⟩
        · have hac : a.toNat < c.toNat := by omega
          simp [hac]
        · have hac : a.toNat < c.toNat := by omega
          simp [hac]
        · have hac : a.toNat < c.toNat := by omega
          simp [hac]
        · have hac : ¬ a.toNat < c.toNat := by omega
          have hca : ¬ c.toNat < a.toNat := by omega
          simp only [hac, hca, if_false]
          exact ih bs cs r1 r2

/-- The `ORDER BY u.unit_no` comparison (SQLite binary collation on TEXT). -/
def unitLE (a b : WalkieUnit) : Prop := sqlStrLe a.unit_no b.unit_no = true

instance : DecidableRel unitLE :=
  fun a b => inferInstanceAs (Decidable (sqlStrLe a.unit_no b.unit_no = true))

instance : IsTotal WalkieUnit unitLE :=
  ⟨fun a b => charListLe_total a.unit_no.data b.unit_no.data⟩

instance : IsTrans WalkieUnit unitLE :=
  ⟨fun _ _ _ h1 h2 => charListLe_trans _ _ _ h1 h2⟩

/-- `_load_inventory`: the units with no matching open ledger row
(`LEFT JOIN ... WHERE r.id IS NULL`), ordered by `unit_no`. -/
def listAvailable (db : DB) : List WalkieUnit :=
  (db.units.filter (fun u => !(db.rental.any (fun r => matchesRented u r)))).insertionSort unitLE

/-! ## Claim (POST branch of `rental_items`) -/

/-- The serial lookup inside the claim loop:
`SELECT serial_no FROM walkie_talkie_units WHERE unit_no = :unit_no`
(first row), falling back to the placeholder `"Unknown-<unit_no>"`. -/
def lookupSerial (units : List WalkieUnit) (unit_no : String) : String :=
  match units.find? (fun u => u.unit_no == unit_no) with
  | some u => u.serial_no
  | none => "Unknown-" ++ unit_no

/-- The ledger row built by the `INSERT INTO rental ...` of the claim loop. -/
def claimEntry (info : RenterInfo) (now : String) (id : Nat)
    (serial_no unit_no : String) : RentalEntry :=
  { id := id, user_name := info.user_name, dept := info.dept, phone := info.phone,
    start_date := info.start_date, end_date := info.end_date,
    signature := info.signature, serial_no := serial_no, qty := 1,
    rental_date := now, status := "rented", unit_no := unit_no }

/-- One iteration of the claim loop: resolve the serial, insert one row. -/
def claimStep (info : RenterInfo) (now : String) (db : DB) (unit_no : String) : DB :=
  { db with
    rental := db.rental ++
      [claimEntry info now db.next_rental_id (lookupSerial db.units unit_no) unit_no],
    next_rental_id := db.next_rental_id + 1 }

/-- The claim loop of the POST branch of `rental_items`: one insert per
requested unit id, in order. -/
def claimUnits (db : DB) (info : RenterInfo) (now : String)
    (selected_units : List String) : DB :=
  selected_units.foldl (claimStep info now) db

/-- Observable outcome of the `rental_items` POST handler. -/
inductive RentalItemsResponse where
  | warningForm
  | sessionError
  | redirectDone
deriving DecidableEq

/-- ASCII whitespace, as stripped by Python's `str.strip()`. -/
def isPySpace (c : Char) : Bool :=
  c = ' ' || c = '\t' || c = '\n' || c = '\r' || c = '\x0b' || c = '\x0c'

/-- Python `str.strip()`: drop whitespace from both ends. -/
def pyStrip (s : String) : String :=
  ⟨((s.data.dropWhile isPySpace).reverse.dropWhile isPySpace).reverse⟩

/-- Python `str.split(",")` on the character list: always at least one
fragment, empty fragments kept. -/
def splitCommas : List Char → List (List Char)
  | [] => [[]]
  | c :: cs =>
    let r := splitCommas cs
    if c = ',' then [] :: r
    else
      match r with
      | [] => [[c]]
      | h :: t => (c :: h) :: t

/-- Python `str.split(",")`. -/
def splitCSV (s : String) : List String :=
  (splitCommas s.data).map (fun l => ⟨l⟩)

/-- Selection extraction of the `rental_items` POST handler: the stripped
`items` CSV field split on commas with empty fragments dropped, falling
back to the multi-value form lists when that yields nothing. -/
def parseSelectedUnits (csv : String) (fallback : List String) : List String :=
  let fromCsv := (splitCSV (pyStrip csv)).filter (fun x => x ≠ "")
  if fromCsv.isEmpty then fallback else fromCsv

/-- The POST branch of `rental_items`: empty selection re-renders the form
with a warning flash; a missing session renders the error page; otherwise
the claim loop runs and the handler redirects to `/rental_done`. -/
def rental_items_post (db : DB) (info : Option RenterInfo) (now csv : String)
    (fallback : List String) : DB × RentalItemsResponse :=
  let selected := parseSelectedUnits csv fallback
  if selected.isEmpty then (db, RentalItemsResponse.warningForm)
  else
    match info with
    | none => (db, RentalItemsResponse.sessionError)
    | some i => (claimUnits db i now selected, RentalItemsResponse.redirectDone)

/-! ## Return (POST branch of `return_items`) -/

/-- The rows matched by the lookup in the return loop:
`WHERE dept = :dept AND serial_no = :serial_no AND LOWER(status) = 'rented'`. -/
def openMatches (rental : List RentalEntry) (dept serial_no : String) :
    List RentalEntry :=
  rental.filter (fun r =>
    r.dept == dept && r.serial_no == serial_no && sqlLower r.status == "rented")

/-- `SELECT id ... ORDER BY id DESC LIMIT 1`: the greatest id among the
open matches, if any. -/
def findOpenId (rental : List RentalEntry) (dept serial_no : String) : Option Nat :=
  ((openMatches rental dept serial_no).map (fun r => r.id)).max?

/-- The conditional `UPDATE rental SET status = 'returned', end_date = ...
WHERE id = :id AND LOWER(status) = 'rented'` applied to one row. -/
def closeEntry (now : String) (rid : Nat) (r : RentalEntry) : RentalEntry :=
  if r.id == rid && sqlLower r.status == "rented"
  then { r with status := "returned", end_date := now }
  else r

/-- One iteration of the return loop: find the most recent open row for
the department and serial; skip if none; otherwise close it and append
one `returns_log` row referencing it. -/
def returnStep (dept returner_name returner_phone now : String) (db : DB)
    (serial_no : String) : DB :=
  match findOpenId db.rental dept serial_no with
  | none => db
  | some rid =>
    { db with
      rental := db.rental.map (closeEntry now rid),
      returns_log := db.returns_log ++
        [{ rental_id := rid, dept := dept, returner_name := returner_name,
           returner_phone := returner_phone, returned_at := now }] }

/-- The return loop of the POST branch of `return_items`. -/
def returnUnits (db : DB) (dept returner_name returner_phone now : String)
    (selected_serials : List String) : DB :=
  selected_serials.foldl (returnStep dept returner_name returner_phone now) db

/-! ## Administrative purge (`delete_rentals`) -/

/-- `delete_rentals`: `DELETE FROM rental WHERE serial_no IN (...) AND
LOWER(status) = 'rented'`; a no-op when no serials are submitted. -/
def delete_rentals (db : DB) (serials : List String) : DB :=
  if serials.isEmpty then db
  else
    { db with
      rental := db.rental.filter (fun r =>
        !(serials.contains r.serial_no && sqlLower r.status == "rented")) }

/-! ## Guarded unit deletion (`admin_delete_walkies`) -/

/-- Observable outcome of the `admin_delete_walkies` handler.  The
`conflictError` constructor exists to state the specification's claimed
error outcome; the code itself only ever redirects. -/
inductive AdminDeleteResult where
  | redirect
  | conflictError
deriving DecidableEq

/-- The subquery `SELECT unit_no FROM rental WHERE LOWER(status)='rented'`. -/
def rentedUnitNos (rental : List RentalEntry) : List String :=
  (rental.filter (fun r => sqlLower r.status == "rented")).map (fun r => r.unit_no)

/-- `admin_delete_walkies`: `DELETE FROM walkie_talkie_units WHERE unit_no
IN :unit_nos AND unit_no NOT IN (SELECT unit_no FROM rental WHERE
LOWER(status)='rented')`, then redirect.  An empty submission redirects
without touching the table. -/
def admin_delete_walkies (db : DB) (unit_nos : List String) :
    DB × AdminDeleteResult :=
  if unit_nos.isEmpty then (db, AdminDeleteResult.redirect)
  else
    ({ db with
        units := db.units.filter (fun u =>
          !(unit_nos.contains u.unit_no &&
            !(rentedUnitNos db.rental).contains u.unit_no)) },
      AdminDeleteResult.redirect)

/-! ## Bundle provisioning (`admin_add_equipment_bundle`) -/

/-- Python `f"{n:06d}"` for a natural number: decimal digits left-padded
with zeros to width 6. -/
def pad6 (n : Nat) : String :=
  let s := toString n
  if s.length < 6 then ⟨List.replicate (6 - s.length) '0'⟩ ++ s else s

/-- One iteration of the provisioning loop: skip if the generated
`unit_no` or `serial_no` already occurs in the registry
(`WHERE unit_no = :unit_no OR serial_no = :serial_no`), otherwise insert. -/
def bundleStep (item_name : String) (bid : Nat) (units : List WalkieUnit)
    (unit_no serial_no : String) : List WalkieUnit :=
  if units.any (fun u => u.unit_no == unit_no || u.serial_no == serial_no)
  then units
  else units ++ [{ unit_no := unit_no, serial_no := serial_no,
                   item_name := some item_name, bundle_id := some bid }]

/-- The provisioning loop over the index list, generating
`unit_no = "No." + (start_unit_no + i)` and
`serial_no = pad6 (start_sn + i)` for each index `i`. -/
def bundleUnitsLoop (item_name : String) (bid start_unit_no start_sn : Nat)
    (units : List WalkieUnit) (idxs : List Nat) : List WalkieUnit :=
  idxs.foldl (fun acc i =>
    bundleStep item_name bid acc ("No." ++ toString (start_unit_no + i))
      (pad6 (start_sn + i))) units

/-- `admin_add_equipment_bundle`: a zero quantity is a no-op; otherwise one
`equipment` summary row is created (modelled only through the allocated
bundle id counter) and the provisioning loop runs for
`i = 0 .. total_qty - 1`.  The sequence starts are modelled as naturals,
matching every value the specification exercises. -/
def admin_add_equipment_bundle (db : DB) (item_name : String)
    (total_qty start_unit_no start_sn : Nat) : DB :=
  if total_qty = 0 then db
  else
    { db with
      units := bundleUnitsLoop item_name db.next_bundle_id start_unit_no start_sn
        db.units (List.range total_qty),
      next_bundle_id := db.next_bundle_id + 1 }

/-! ## Reachable states -/

/-- One core operation of the subsystem. -/
inductive Op where
  | claim (info : RenterInfo) (now : String) (selected_units : List String)
  | ret (dept returner_name returner_phone now : String)
      (selected_serials : List String)
  | purge (serials : List String)
  | del (unit_nos : List String)
  | bundle (item_name : String) (total_qty start_unit_no start_sn : Nat)

/-- Apply one operation to the state. -/
def applyOp (db : DB) : Op → DB
  | Op.claim info now us => claimUnits db info now us
  | Op.ret d n p t ss => returnUnits db d n p t ss
  | Op.purge ss => delete_rentals db ss
  | Op.del uns => (admin_delete_walkies db uns).1
  | Op.bundle iname q u0 s0 => admin_add_equipment_bundle db iname q u0 s0

/-- States reachable by any sequence of core operations from a state with
an empty rental ledger and an empty returns log. -/
inductive Reachable : DB → Prop where
  | init (units : List WalkieUnit) (nid nb : Nat) :
      Reachable ⟨units, [], [], nid, nb⟩
  | step {db : DB} (op : Op) : Reachable db → Reachable (applyOp db op)

/-- The number of open (`rented`) ledger rows carrying exactly the given
`unit_no`. -/
def rentedCount (db : DB) (u : String) : Nat :=
  (db.rental.filter (fun r =>
    r.unit_no == u && sqlLower r.status == "rented")).length

/-- States reachable when every claim batch consists of pairwise distinct
unit ids, each with no open ledger row at claim time; all other
operations are unrestricted. -/
inductive GuardedReachable : DB → Prop where
  | init (units : List WalkieUnit) (nid nb : Nat) :
      GuardedReachable ⟨units, [], [], nid, nb⟩
  | claim {db : DB} (info : RenterInfo) (now : String) (us : List String) :
      GuardedReachable db → us.Nodup → (∀ u ∈ us, rentedCount db u = 0) →
      GuardedReachable (claimUnits db info now us)
  | ret {db : DB} (d n p t : String) (ss : List String) :
      GuardedReachable db → GuardedReachable (returnUnits db d n p t ss)
  | purge {db : DB} (ss : List String) :
      GuardedReachable db → GuardedReachable (delete_rentals db ss)
  | del {db : DB} (uns : List String) :
      GuardedReachable db → GuardedReachable ((admin_delete_walkies db uns).1)
  | bundle {db : DB} (iname : String) (q u0 s0 : Nat) :
      GuardedReachable db → GuardedReachable (admin_add_equipment_bundle db iname q u0 s0)

/-- The explicit list of ledger rows inserted by one claim batch: one row
per requested unit id, with consecutive ids starting at `nid`. -/
def mkClaimEntries (units : List WalkieUnit) (info : RenterInfo) (now : String) :
    Nat → List String → List RentalEntry
  | _, [] => []
  | nid, u :: us =>
    claimEntry info now nid (lookupSerial units u) u ::
      mkClaimEntries units info now (nid + 1) us

/-! ## Concrete states used as counterexamples and witnesses -/

/-- A renter record with every field present. -/
def someRenter : RenterInfo := ⟨"Kim", "Ops", "01012345678", "2025-01-01", "2025-01-02", "sig"⟩

/-- The initial state: empty registry, empty ledger, empty returns log. -/
def emptyDB : DB := ⟨[], [], [], 1, 1⟩

/-- The state after two successive claim batches for the same unit id
`No.1`, both issued from the empty state. -/
def doubleClaimDB : DB :=
  claimUnits (claimUnits emptyDB someRenter "2025-01-01 10:00:00" ["No.1"])
    someRenter "2025-01-01 10:05:00" ["No.1"]

/-- The state after one return call on `doubleClaimDB`. -/
def firstReturnDB : DB :=
  returnUnits doubleClaimDB "Ops" "Kim" "01012345678" "2025-01-02 09:00:00"
    ["Unknown-No.1"]

/-- The state after a second, identical return call on `firstReturnDB`. -/
def secondReturnDB : DB :=
  returnUnits firstReturnDB "Ops" "Kim" "01012345678" "2025-01-02 09:00:00"
    ["Unknown-No.1"]

/-- Scenario D state: unit `No.2` registered and currently rented. -/
def scenarioD_DB : DB :=
  ⟨[⟨"No.2", "000002", some "Radio", some 1⟩],
    [⟨1, "Kim", "Ops", "01012345678", "2025-01-01", "", "sig", "000002", 1,
      "2025-01-01 10:00:00", "rented", "No.2"⟩], [], 2, 2⟩

/-- A state with a single open ledger row, used to exercise the return
path at a concrete input. -/
def oneOpenDB : DB :=
  ⟨[⟨"No.1", "000001", some "Radio", some 1⟩],
    [⟨1, "Kim", "Ops", "01012345678", "2025-01-01", "", "sig", "000001", 1,
      "2025-01-01 10:00:00", "rented", "No.1"⟩], [], 2, 2⟩

/-! ## Helper lemmas -/

theorem claimUnits_units (us : List String) (info : RenterInfo) (now : String) :
    ∀ db : DB, (claimUnits db info now us).units = db.units := by
  induction us with
  | nil => intro db; rfl
  | cons u us ih => intro db; exact ih (claimStep info now db u)

theorem claimUnits_returns_log (us : List String) (info : RenterInfo) (now : String) :
    ∀ db : DB, (claimUnits db info now us).returns_log = db.returns_log := by
  induction us with
  | nil => intro db; rfl
  | cons u us ih => intro db; exact ih (claimStep info now db u)

theorem claimUnits_rental (us : List String) (info : RenterInfo) (now : String) :
    ∀ db : DB, (claimUnits db info now us).rental =
      db.rental ++ mkClaimEntries db.units info now db.next_rental_id us := by
  induction us with
  | nil => intro db; simp [claimUnits, mkClaimEntries]
  | cons u us ih =>
    intro db
    have step : claimUnits db info now (u :: us) =
        claimUnits (claimStep info now db u) info now us := rfl
    rw [step, ih (claimStep info now db u)]
    simp [claimStep, mkClaimEntries]

theorem returnStep_units (d n p t : String) (db : DB) (s : String) :
    (returnStep d n p t db s).units = db.units := by
  unfold returnStep
  cases findOpenId db.rental d s <;> rfl

theorem returnUnits_units (ss : List String) (d n p t : String) :
    ∀ db : DB, (returnUnits db d n p t ss).units = db.units := by
  induction ss with
  | nil => intro db; rfl
  | cons s ss ih =>
    intro db
    have step : returnUnits db d n p t (s :: ss) =
        returnUnits (returnStep d n p t db s) d n p t ss := rfl
    rw [step, ih, returnStep_units]

theorem mkClaimEntries_map_unit_no (units : List WalkieUnit) (info : RenterInfo)
    (now : String) (us : List String) :
    ∀ nid : Nat,
      (mkClaimEntries units info now nid us).map (fun e => e.unit_no) = us := by
  induction us with
  | nil => intro nid; rfl
  | cons u us ih => intro nid; simp [mkClaimEntries, claimEntry, ih]

theorem mkClaimEntries_mem (units : List WalkieUnit) (info : RenterInfo)
    (now : String) (us : List String) :
    ∀ nid : Nat, ∀ e ∈ mkClaimEntries units info now nid us,
      e.status = "rented" ∧ e.rental_date = now ∧
        e.serial_no = lookupSerial units e.unit_no := by
  induction us with
  | nil => intro nid e he; simp [mkClaimEntries] at he
  | cons u us ih =>
    intro nid e he
    simp only [mkClaimEntries, List.mem_cons] at he
    rcases he with rfl | he
    · exact ⟨rfl, rfl, rfl⟩
    · exact ih (nid + 1) e he

theorem lookupSerial_found {units : List WalkieUnit} {u : String} {w : WalkieUnit}
    (h : units.find? (fun x => x.unit_no == u) = some w) :
    lookupSerial units u = w.serial_no := by
  simp [lookupSerial, h]

theorem lookupSerial_missing {units : List WalkieUnit} {u : String}
    (h : units.find? (fun x => x.unit_no == u) = none) :
    lookupSerial units u = "Unknown-" ++ u := by
  simp [lookupSerial, h]

theorem sqlLower_rented : sqlLower "rented" = "rented" := rfl

theorem sqlLower_returned : sqlLower "returned" = "returned" := rfl

theorem rentedCount_claimStep (info : RenterInfo) (now : String) (db : DB)
    (x u : String) :
    rentedCount (claimStep info now db x) u =
      rentedCount db u + (if x = u then 1 else 0) := by
  simp only [rentedCount, claimStep, claimEntry, List.filter_append,
    List.length_append]
  by_cases h : x = u
  · subst h; simp [sqlLower_rented]
  · simp [List.filter_cons, h, sqlLower_rented]

theorem rentedCount_claimUnits (us : List String) (info : RenterInfo)
    (now : String) (u : String) :
    ∀ db : DB, rentedCount (claimUnits db info now us) u =
      rentedCount db u + us.count u := by
  induction us with
  | nil => intro db; simp [claimUnits]
  | cons x us ih =>
    intro db
    have step : claimUnits db info now (x :: us) =
        claimUnits (claimStep info now db x) info now us := rfl
    rw [step, ih, rentedCount_claimStep, List.count_cons]
    by_cases h : x = u
    · simp only [h, if_true, beq_self_eq_true]
      omega
    · have hb : (x == u) = false := beq_eq_false_iff_ne.mpr h
      simp [h, hb]

theorem length_filter_map_le {α : Type _} (f : α → α) (p : α → Bool)
    (h : ∀ x, p (f x) = true → p x = true) :
    ∀ l : List α, ((l.map f).filter p).length ≤ (l.filter p).length := by
  intro l
  induction l with
  | nil => simp
  | cons x l ih =>
    simp only [List.map_cons, List.filter_cons]
    cases hfx : p (f x)
    · cases hpx : p x
      · simpa using ih
      · simp only [Bool.false_eq_true, if_false, if_true, List.length_cons]
        exact Nat.le_succ_of_le ih
    · have hpx := h x hfx
      simp only [hfx, hpx, if_true, List.length_cons]
      exact Nat.succ_le_succ ih

theorem closeEntry_open_pred (now : String) (rid : Nat) (u : String) (r : RentalEntry) :
    ((closeEntry now rid r).unit_no == u &&
        sqlLower (closeEntry now rid r).status == "rented") = true →
      (r.unit_no == u && sqlLower r.status == "rented") = true := by
  unfold closeEntry
  split
  · intro h
    simp only [Bool.and_eq_true] at h
    exact absurd h.2 (by decide)
  · exact fun h => h

theorem rentedCount_returnStep_le (d n p t : String) (db : DB) (s u : String) :
    rentedCount (returnStep d n p t db s) u ≤ rentedCount db u := by
  cases hf : findOpenId db.rental d s
  · simp only [returnStep, hf]
    exact le_refl _
  · simp only [returnStep, hf]
    simp only [rentedCount]
    exact length_filter_map_le _ _ (closeEntry_open_pred t _ u) db.rental

theorem rentedCount_returnUnits_le (ss : List String) (d n p t u : String) :
    ∀ db : DB, rentedCount (returnUnits db d n p t ss) u ≤ rentedCount db u := by
  induction ss with
  | nil => intro db; exact le_refl _
  | cons s ss ih =>
    intro db
    have step : returnUnits db d n p t (s :: ss) =
        returnUnits (returnStep d n p t db s) d n p t ss := rfl
    rw [step]
    exact le_trans (ih _) (rentedCount_returnStep_le d n p t db s u)

theorem rentedCount_delete_rentals_le (db : DB) (ss : List String) (u : String) :
    rentedCount (delete_rentals db ss) u ≤ rentedCount db u := by
  unfold delete_rentals
  split
  · exact le_refl _
  · simp only [rentedCount]
    exact List.Sublist.length_le (List.Sublist.filter _ (List.filter_sublist _))

theorem delete_rentals_units (db : DB) (ss : List String) :
    (delete_rentals db ss).units = db.units := by
  unfold delete_rentals; split <;> rfl

theorem delete_rentals_returns_log (db : DB) (ss : List String) :
    (delete_rentals db ss).returns_log = db.returns_log := by
  unfold delete_rentals; split <;> rfl

theorem admin_delete_walkies_rental (db : DB) (uns : List String) :
    ((admin_delete_walkies db uns).1).rental = db.rental := by
  unfold admin_delete_walkies; split <;> rfl

theorem admin_delete_walkies_returns_log (db : DB) (uns : List String) :
    ((admin_delete_walkies db uns).1).returns_log = db.returns_log := by
  unfold admin_delete_walkies; split <;> rfl

theorem admin_add_equipment_bundle_rental (db : DB) (iname : String) (q u0 s0 : Nat) :
    (admin_add_equipment_bundle db iname q u0 s0).rental = db.rental := by
  unfold admin_add_equipment_bundle; split <;> rfl

theorem admin_add_equipment_bundle_returns_log (db : DB) (iname : String)
    (q u0 s0 : Nat) :
    (admin_add_equipment_bundle db iname q u0 s0).returns_log = db.returns_log := by
  unfold admin_add_equipment_bundle; split <;> rfl

theorem mem_rentedUnitNos {rental : List RentalEntry} {x : String} :
    x ∈ rentedUnitNos rental ↔
      ∃ r ∈ rental, sqlLower r.status = "rented" ∧ r.unit_no = x := by
  simp only [rentedUnitNos, List.mem_map, List.mem_filter, beq_iff_eq]
  constructor
  · rintro ⟨r, ⟨hr, hs⟩, hu⟩
    exact ⟨r, hr, hs, hu⟩
  · rintro ⟨r, hr, hs, hu⟩
    exact ⟨r, ⟨hr, hs⟩, hu⟩

theorem contains_eq_true_iff {l : List String} {x : String} :
    l.contains x = true ↔ x ∈ l :=
  List.elem_iff

theorem purge_pred_iff (serials : List String) (r : RentalEntry) :
    (!(serials.contains r.serial_no && sqlLower r.status == "rented")) = true ↔
      ¬(r.serial_no ∈ serials ∧ sqlLower r.status = "rented") := by
  rw [Bool.not_eq_true']
  constructor
  · intro hb hcon
    rcases hcon with ⟨hs, hr⟩
    have ht : (serials.contains r.serial_no && sqlLower r.status == "rented") = true := by
      rw [Bool.and_eq_true]
      exact ⟨contains_eq_true_iff.mpr hs, beq_iff_eq.mpr hr⟩
    rw [ht] at hb
    exact Bool.noConfusion hb
  · intro hn
    cases hb : (serials.contains r.serial_no && sqlLower r.status == "rented")
    · rfl
    · rw [Bool.and_eq_true] at hb
      exact absurd ⟨contains_eq_true_iff.mp hb.1, beq_iff_eq.mp hb.2⟩ hn

/-! ## Claim theorems -/

/-- C1 counterexample: the state reached from the empty ledger by two
successive claim batches for unit `No.1` is reachable, yet carries two
ledger rows with `unit_no = "No.1"` and status `rented`; the claimed
invariant fails on it. -/
theorem claim_twice_breaks_rented_invariant :
    Reachable doubleClaimDB ∧ rentedCount doubleClaimDB "No.1" = 2 ∧
      ¬ rentedCount doubleClaimDB "No.1" ≤ 1 := by
  refine ⟨?_, by decide, by decide⟩
  have h0 : Reachable emptyDB := Reachable.init [] 1 1
  have h1 := Reachable.step (Op.claim someRenter "2025-01-01 10:00:00" ["No.1"]) h0
  exact Reachable.step (Op.claim someRenter "2025-01-01 10:05:00" ["No.1"]) h1

/-- C1 (amended): for every state reachable when each claim batch consists
of pairwise distinct unit ids, each available (no open ledger row) at
claim time — and arbitrary returns, purges, deletions and bundle
creations — every `unit_no` has at most one ledger row with status
`rented`. -/
theorem guarded_rented_invariant {db : DB} (h : GuardedReachable db) :
    ∀ u : String, rentedCount db u ≤ 1 := by
  induction h with
  | init units nid nb => intro u; simp [rentedCount]
  | claim info now us hdb hnd hav ih =>
    intro u
    rw [rentedCount_claimUnits]
    by_cases hu : u ∈ us
    · rw [hav u hu, List.count_eq_one_of_mem hnd hu]
    · rw [List.count_eq_zero.mpr hu]
      simpa using ih u
  | ret d n p t ss hdb ih =>
    intro u
    exact le_trans (rentedCount_returnUnits_le ss d n p t u _) (ih u)
  | purge ss hdb ih =>
    intro u
    exact le_trans (rentedCount_delete_rentals_le _ ss u) (ih u)
  | del uns hdb ih =>
    intro u
    simp only [rentedCount, admin_delete_walkies_rental]
    simpa only [rentedCount] using ih u
  | bundle iname q u0 s0 hdb ih =>
    intro u
    simp only [rentedCount, admin_add_equipment_bundle_rental]
    simpa only [rentedCount] using ih u

/-- C1 (amended) witness: the invariant instantiated at the concrete state
reached by one guarded claim of unit `No.1` from the empty state. -/
theorem guarded_rented_invariant_witness :
    rentedCount (claimUnits emptyDB someRenter "2025-01-01 10:00:00" ["No.1"]) "No.1" ≤ 1 :=
  guarded_rented_invariant
    (GuardedReachable.claim someRenter "2025-01-01 10:00:00" ["No.1"]
      (GuardedReachable.init [] 1 1) (by decide) (by decide)) "No.1"

/-- C3: a claim batch appends exactly one ledger row per requested unit id
(in order, never rejecting any id), each with status `rented` and the
current timestamp, taking `serial_no` from the first registry row with
that `unit_no` when one exists and the placeholder `"Unknown-" ++ unit_no`
otherwise. -/
theorem claim_inserts_entries (db : DB) (info : RenterInfo) (now : String)
    (us : List String) :
    (claimUnits db info now us).rental =
        db.rental ++ mkClaimEntries db.units info now db.next_rental_id us ∧
    (mkClaimEntries db.units info now db.next_rental_id us).map (fun e => e.unit_no) = us ∧
    ∀ e ∈ mkClaimEntries db.units info now db.next_rental_id us,
      e.status = "rented" ∧ e.rental_date = now ∧
        ((∃ w, db.units.find? (fun x => x.unit_no == e.unit_no) = some w ∧
            e.serial_no = w.serial_no) ∨
          (db.units.find? (fun x => x.unit_no == e.unit_no) = none ∧
            e.serial_no = "Unknown-" ++ e.unit_no)) := by
  refine ⟨claimUnits_rental us info now db,
    mkClaimEntries_map_unit_no db.units info now us db.next_rental_id, ?_⟩
  intro e he
  obtain ⟨h1, h2, h3⟩ := mkClaimEntries_mem db.units info now us db.next_rental_id e he
  refine ⟨h1, h2, ?_⟩
  cases hf : db.units.find? (fun x => x.unit_no == e.unit_no) with
  | none => exact Or.inr ⟨rfl, by rw [h3, lookupSerial_missing hf]⟩
  | some w => exact Or.inl ⟨w, rfl, by rw [h3, lookupSerial_found hf]⟩

/-- C9: a claim submission whose extracted unit selection is empty leaves
the state unchanged and re-renders the selection form with a warning,
which is distinct from the error response. -/
theorem empty_selection_noop (db : DB) (info : Option RenterInfo) (now csv : String)
    (fallback : List String) (h : parseSelectedUnits csv fallback = []) :
    rental_items_post db info now csv fallback = (db, RentalItemsResponse.warningForm) ∧
    RentalItemsResponse.warningForm ≠ RentalItemsResponse.sessionError := by
  refine ⟨?_, by decide⟩
  simp [rental_items_post, h]

/-- C9 witness: the empty form submission at the empty state. -/
theorem empty_selection_noop_witness :
    parseSelectedUnits "" [] = [] ∧
      rental_items_post emptyDB (some someRenter) "2025-01-01 10:00:00" "" [] =
        (emptyDB, RentalItemsResponse.warningForm) :=
  ⟨by decide,
    (empty_selection_noop emptyDB (some someRenter) "2025-01-01 10:00:00" "" []
      (by decide)).1⟩

/-- C8: the administrative purge deletes exactly the ledger rows whose
`serial_no` occurs in the submitted list and whose status is still
`rented` (case-insensitively); the registry and the returns log are
untouched. -/
theorem purge_characterization (db : DB) (serials : List String) :
    (delete_rentals db serials).units = db.units ∧
    (delete_rentals db serials).returns_log = db.returns_log ∧
    ∀ r, r ∈ (delete_rentals db serials).rental ↔
      r ∈ db.rental ∧ ¬(r.serial_no ∈ serials ∧ sqlLower r.status = "rented") := by
  refine ⟨delete_rentals_units db serials, delete_rentals_returns_log db serials, ?_⟩
  intro r
  unfold delete_rentals
  split
  · next hemp =>
    have he : serials = [] := by simpa using hemp
    subst he
    simp
  · rw [List.mem_filter, purge_pred_iff]

/-- C10: neither a claim batch nor a return batch modifies the unit
registry; a claim also leaves the returns log untouched. -/
theorem claim_return_preserve_registry (db : DB) (info : RenterInfo)
    (now : String) (us : List String) (d n p t : String) (ss : List String) :
    (claimUnits db info now us).units = db.units ∧
    (claimUnits db info now us).returns_log = db.returns_log ∧
    (returnUnits db d n p t ss).units = db.units :=
  ⟨claimUnits_units us info now db, claimUnits_returns_log us info now db,
    returnUnits_units ss d n p t db⟩

/-- C6 counterexample (Scenario D): deleting unit `No.2` while its ledger
row is still `rented` completes with an ordinary redirect — not with a
`ConflictError` — leaving the registry unchanged. -/
theorem delete_rented_no_conflict_error :
    (admin_delete_walkies scenarioD_DB ["No.2"]).2 = AdminDeleteResult.redirect ∧
    (admin_delete_walkies scenarioD_DB ["No.2"]).2 ≠ AdminDeleteResult.conflictError ∧
    (admin_delete_walkies scenarioD_DB ["No.2"]).1 = scenarioD_DB := by
  exact ⟨by decide, by decide, by decide⟩

/-- C6 (amended): unit deletion never signals a conflict; it always
redirects, keeps the ledger and returns log unchanged, silently keeps
every unit whose `unit_no` has an open (`rented`) ledger row, and removes
exactly the listed units without such a row. -/
theorem admin_delete_walkies_characterization (db : DB) (unit_nos : List String) :
    (admin_delete_walkies db unit_nos).2 = AdminDeleteResult.redirect ∧
    ((admin_delete_walkies db unit_nos).1).rental = db.rental ∧
    ((admin_delete_walkies db unit_nos).1).returns_log = db.returns_log ∧
    ∀ u, u ∈ ((admin_delete_walkies db unit_nos).1).units ↔
      u ∈ db.units ∧ (u.unit_no ∉ unit_nos ∨
        ∃ r ∈ db.rental, sqlLower r.status = "rented" ∧ r.unit_no = u.unit_no) := by
  refine ⟨?_, admin_delete_walkies_rental db unit_nos,
    admin_delete_walkies_returns_log db unit_nos, ?_⟩
  · unfold admin_delete_walkies; split <;> rfl
  · intro u
    unfold admin_delete_walkies
    split
    · next hemp =>
      have he : unit_nos = [] := by simpa using hemp
      subst he
      simp
    · rw [← mem_rentedUnitNos]
      simp [List.mem_filter, List.elem_iff]

/-- C2: the inventory shown by the rental-items view contains exactly the
registry units with no ledger row whose `unit_no` matches under the
trim/upper-case normalisation and whose status is `rented`
case-insensitively, and it is ordered by `unit_no` under the SQLite
BINARY collation. -/
theorem listAvailable_characterization (db : DB) :
    (∀ u, u ∈ listAvailable db ↔
      u ∈ db.units ∧
        ¬ ∃ r ∈ db.rental, normUnitNo r.unit_no = normUnitNo u.unit_no ∧
          sqlLower r.status = "rented") ∧
    (listAvailable db).Pairwise unitLE := by
  constructor
  · intro u
    rw [listAvailable, List.mem_insertionSort, List.mem_filter]
    apply and_congr Iff.rfl
    rw [Bool.not_eq_true', List.any_eq_false]
    constructor
    · rintro h ⟨r, hr, hn, hs⟩
      exact (h r hr) (by
        rw [matchesRented, Bool.and_eq_true]
        exact ⟨beq_iff_eq.mpr hn, beq_iff_eq.mpr hs⟩)
    · intro hne r hr hm
      rw [matchesRented, Bool.and_eq_true] at hm
      exact hne ⟨r, hr, beq_iff_eq.mp hm.1, beq_iff_eq.mp hm.2⟩
  · exact List.sorted_insertionSort unitLE _

theorem mem_openMatches {rental : List RentalEntry} {dept s : String}
    {r : RentalEntry} :
    r ∈ openMatches rental dept s ↔
      r ∈ rental ∧ r.dept = dept ∧ r.serial_no = s ∧ sqlLower r.status = "rented" := by
  simp [openMatches, List.mem_filter, Bool.and_eq_true, beq_iff_eq, and_assoc]

theorem findOpenId_none_iff {rental : List RentalEntry} {dept s : String} :
    findOpenId rental dept s = none ↔ openMatches rental dept s = [] := by
  rw [findOpenId, List.max?_eq_none_iff, List.map_eq_nil_iff]

theorem findOpenId_some {rental : List RentalEntry} {dept s : String} {rid : Nat}
    (h : findOpenId rental dept s = some rid) :
    (∃ r ∈ openMatches rental dept s, r.id = rid) ∧
      ∀ r ∈ openMatches rental dept s, r.id ≤ rid := by
  rw [findOpenId] at h
  have hm := List.max?_eq_some_iff'.mp h
  constructor
  · obtain ⟨r, hr, hid⟩ := List.mem_map.mp hm.1
    exact ⟨r, hr, hid⟩
  · intro r hr
    exact hm.2 _ (List.mem_map_of_mem _ hr)

/-- C4: a single-identifier return is a no-op when no open ledger row for
the department and serial exists; otherwise it closes exactly the open
row with the greatest id (the most recent one), stamps its end date with
the current time, leaves every other row and the registry unchanged, and
appends exactly one returns-log row referencing the closed ledger row. -/
theorem return_step_characterization (db : DB)
    (hid : (db.rental.map (fun r => r.id)).Nodup)
    (dept n p now serial : String) :
    (findOpenId db.rental dept serial = none →
      returnUnits db dept n p now [serial] = db) ∧
    ∀ rid, findOpenId db.rental dept serial = some rid →
      (returnUnits db dept n p now [serial]).units = db.units ∧
      (returnUnits db dept n p now [serial]).returns_log =
        db.returns_log ++ [⟨rid, dept, n, p, now⟩] ∧
      (∃ r ∈ db.rental, r.id = rid ∧ r.dept = dept ∧ r.serial_no = serial ∧
        sqlLower r.status = "rented" ∧
        ∀ e ∈ openMatches db.rental dept serial, e.id ≤ rid) ∧
      (returnUnits db dept n p now [serial]).rental =
        db.rental.map (fun r =>
          if r.id = rid then { r with status := "returned", end_date := now }
          else r) := by
  have hone : returnUnits db dept n p now [serial] = returnStep dept n p now db serial := rfl
  constructor
  · intro h
    rw [hone]
    simp [returnStep, h]
  · intro rid hr
    obtain ⟨⟨r0, hr0m, hr0id⟩, hmax⟩ := findOpenId_some hr
    obtain ⟨hr0mem, hr0dept, hr0ser, hr0open⟩ := mem_openMatches.mp hr0m
    have hmapeq : db.rental.map (closeEntry now rid) =
        db.rental.map (fun r =>
          if r.id = rid then { r with status := "returned", end_date := now }
          else r) := by
      apply List.map_congr_left
      intro x hx
      by_cases hxid : x.id = rid
      · have hx0 : x = r0 :=
          List.inj_on_of_nodup_map hid hx hr0mem (hxid.trans hr0id.symm)
        subst hx0
        simp [closeEntry, hxid, hr0open]
      · simp [closeEntry, hxid, beq_eq_false_iff_ne.mpr hxid]
    rw [hone]
    refine ⟨by simp [returnStep, hr], by simp [returnStep, hr], ?_, ?_⟩
    · exact ⟨r0, hr0mem, hr0id, hr0dept, hr0ser, hr0open, hmax⟩
    · simp only [returnStep, hr]
      exact hmapeq

/-- C4 witness: returning serial `000001` at a concrete state with one
open ledger row appends exactly one returns-log row. -/
theorem return_step_characterization_witness :
    (oneOpenDB.rental.map (fun r => r.id)).Nodup ∧
      (returnUnits oneOpenDB "Ops" "Kim" "01012345678" "2025-01-02 09:00:00"
        ["000001"]).returns_log =
        [⟨1, "Ops", "Kim", "01012345678", "2025-01-02 09:00:00"⟩] := by
  refine ⟨by decide, ?_⟩
  have h := (return_step_characterization oneOpenDB (by decide) "Ops" "Kim"
    "01012345678" "2025-01-02 09:00:00" "000001").2 1 (by decide)
  rw [h.2.1]
  rfl

theorem lower_returned_ne_rented : (sqlLower "returned" == "rented") = false := by
  decide

theorem closeEntry_guard_true {now : String} {rid : Nat} {r : RentalEntry}
    (hg : (r.id == rid && sqlLower r.status == "rented") = true) :
    closeEntry now rid r = { r with status := "returned", end_date := now } := by
  unfold closeEntry
  rw [hg]
  simp

theorem closeEntry_guard_false {now : String} {rid : Nat} {r : RentalEntry}
    (hg : (r.id == rid && sqlLower r.status == "rented") = false) :
    closeEntry now rid r = r := by
  unfold closeEntry
  rw [hg]
  simp

theorem openMatches_map_closeEntry (now : String) (rid : Nat) (dept s : String) :
    ∀ l : List RentalEntry,
      openMatches (l.map (closeEntry now rid)) dept s =
        (openMatches l dept s).filter (fun r => !(r.id == rid)) := by
  intro l
  induction l with
  | nil => rfl
  | cons r l ih =>
    simp only [List.map_cons, openMatches, List.filter_cons] at ih ⊢
    cases hg : (r.id == rid && sqlLower r.status == "rented")
    · rw [closeEntry_guard_false hg]
      cases hP : (r.dept == dept && r.serial_no == s && sqlLower r.status == "rented")
      · simp only [Bool.false_eq_true, if_false]
        exact ih
      · have hnid : (!(r.id == rid)) = true := by
          have hopen : (sqlLower r.status == "rented") = true :=
            (Bool.and_eq_true _ _ |>.mp hP).2
          cases hb : (r.id == rid)
          · rfl
          · rw [hb, hopen] at hg
            exact Bool.noConfusion hg
        simp [List.filter_cons, hnid, ih]
    · rw [closeEntry_guard_true hg]
      dsimp only
      rw [lower_returned_ne_rented, Bool.and_false]
      simp only [Bool.false_eq_true, if_false]
      cases hP : (r.dept == dept && r.serial_no == s && sqlLower r.status == "rented")
      · simp only [Bool.false_eq_true, if_false]
        exact ih
      · have hnid : (!(r.id == rid)) = false := by
          rw [Bool.and_eq_true _ _ |>.mp hg |>.1]
          rfl
        simp [List.filter_cons, hnid, ih]

theorem openMatches_returnStep_le (d n p t : String) (db : DB) (x dept s : String) :
    (openMatches (returnStep d n p t db x).rental dept s).length ≤
      (openMatches db.rental dept s).length := by
  cases hf : findOpenId db.rental d x
  · simp [returnStep, hf]
  · simp only [returnStep, hf]
    rw [openMatches_map_closeEntry]
    exact (List.filter_sublist _).length_le

theorem openMatches_returnUnits_le (ss : List String) (d n p t dept s : String) :
    ∀ db : DB,
      (openMatches (returnUnits db d n p t ss).rental dept s).length ≤
        (openMatches db.rental dept s).length := by
  induction ss with
  | nil => intro db; exact le_refl _
  | cons x xs ih =>
    intro db
    have hstep : returnUnits db d n p t (x :: xs) =
        returnUnits (returnStep d n p t db x) d n p t xs := rfl
    rw [hstep]
    exact le_trans (ih _) (openMatches_returnStep_le d n p t db x dept s)

theorem openMatches_returnStep_self (d n p t : String) (db : DB) (s : String)
    (h : (openMatches db.rental d s).length ≤ 1) :
    openMatches (returnStep d n p t db s).rental d s = [] := by
  cases hf : findOpenId db.rental d s
  · have hempty := findOpenId_none_iff.mp hf
    simp [returnStep, hf, hempty]
  · next rid =>
    obtain ⟨⟨r0, hr0m, hr0id⟩, _⟩ := findOpenId_some hf
    have hone : openMatches db.rental d s = [r0] := by
      cases hms : openMatches db.rental d s with
      | nil => rw [hms] at hr0m; cases hr0m
      | cons a tl =>
        cases tl with
        | nil =>
          rw [hms] at hr0m
          simp only [List.mem_singleton] at hr0m
          rw [hr0m]
        | cons b tl2 =>
          rw [hms] at h
          simp at h
    simp only [returnStep, hf]
    rw [openMatches_map_closeEntry, hone]
    have : (!(r0.id == rid)) = false := by simp [hr0id]
    simp [List.filter_cons, this]

theorem returnStep_of_no_match (d n p t : String) (db : DB) (s : String)
    (h : openMatches db.rental d s = []) : returnStep d n p t db s = db := by
  have hf : findOpenId db.rental d s = none := findOpenId_none_iff.mpr h
  simp [returnStep, hf]

theorem returnUnits_clears (ss : List String) (d n p t : String) :
    ∀ db : DB, (∀ s ∈ ss, (openMatches db.rental d s).length ≤ 1) →
      ∀ s ∈ ss, openMatches (returnUnits db d n p t ss).rental d s = [] := by
  induction ss with
  | nil => intro db _ s hs; cases hs
  | cons x xs ih =>
    intro db h s hs
    have hstep : returnUnits db d n p t (x :: xs) =
        returnUnits (returnStep d n p t db x) d n p t xs := rfl
    rw [hstep]
    rcases List.mem_cons.mp hs with rfl | hs2
    · have hz := openMatches_returnStep_self d n p t db s (h s hs)
      have hle := openMatches_returnUnits_le xs d n p t d s (returnStep d n p t db s)
      rw [hz] at hle
      exact List.length_eq_zero.mp (Nat.le_zero.mp (by simpa using hle))
    · apply ih (returnStep d n p t db x)
      · intro s2 hs3
        exact le_trans (openMatches_returnStep_le d n p t db x d s2)
          (h s2 (List.mem_cons_of_mem _ hs3))
      · exact hs2

theorem returnUnits_of_all_empty (ss : List String) (d n p t : String) :
    ∀ db : DB, (∀ s ∈ ss, openMatches db.rental d s = []) →
      returnUnits db d n p t ss = db := by
  induction ss with
  | nil => intro db _; rfl
  | cons x xs ih =>
    intro db h
    have hx := returnStep_of_no_match d n p t db x (h x (List.mem_cons_self x xs))
    have hstep : returnUnits db d n p t (x :: xs) =
        returnUnits (returnStep d n p t db x) d n p t xs := rfl
    rw [hstep, hx]
    exact ih db (fun s hs => h s (List.mem_cons_of_mem _ hs))

/-- C5 counterexample: from the reachable state holding two open ledger
rows for the same department and serial (created by two claims of unit
`No.1`), a second identical return call is not a no-op: it closes the
older row and appends a second returns-log row. -/
theorem double_open_breaks_return_idempotence :
    Reachable doubleClaimDB ∧
    secondReturnDB.rental ≠ firstReturnDB.rental ∧
    secondReturnDB.returns_log.length = firstReturnDB.returns_log.length + 1 := by
  refine ⟨?_, by decide, by decide⟩
  have h0 : Reachable emptyDB := Reachable.init [] 1 1
  have h1 := Reachable.step (Op.claim someRenter "2025-01-01 10:00:00" ["No.1"]) h0
  exact Reachable.step (Op.claim someRenter "2025-01-01 10:05:00" ["No.1"]) h1

/-- C5 (amended): `returnUnits` is idempotent on states where each
submitted identifier has at most one open ledger row for the department:
a second call with the same department and identifier list (at any later
time and by any submitter) changes nothing. -/
theorem returnUnits_idempotent_of_unique_open (db : DB)
    (d n p t n2 p2 t2 : String) (ss : List String)
    (h : ∀ s ∈ ss, (openMatches db.rental d s).length ≤ 1) :
    returnUnits (returnUnits db d n p t ss) d n2 p2 t2 ss =
      returnUnits db d n p t ss :=
  returnUnits_of_all_empty ss d n2 p2 t2 _ (returnUnits_clears ss d n p t db h)

/-- C5 (amended) witness: a repeated return of serial `000001` at a
concrete state with a single open row is a no-op. -/
theorem returnUnits_idempotent_witness :
    (∀ s ∈ ["000001"], (openMatches oneOpenDB.rental "Ops" s).length ≤ 1) ∧
    returnUnits
        (returnUnits oneOpenDB "Ops" "Kim" "01012345678" "2025-01-02 09:00:00"
          ["000001"])
        "Ops" "Lee" "01000000000" "2025-01-03 09:00:00" ["000001"] =
      returnUnits oneOpenDB "Ops" "Kim" "01012345678" "2025-01-02 09:00:00"
        ["000001"] :=
  ⟨by decide,
    returnUnits_idempotent_of_unique_open oneOpenDB "Ops" "Kim" "01012345678"
      "2025-01-02 09:00:00" "Lee" "01000000000" "2025-01-03 09:00:00" ["000001"]
      (by decide)⟩


theorem bundleUnitsLoop_exists (iname : String) (bid u0 s0 : Nat) :
    ∀ (idxs : List Nat) (units : List WalkieUnit),
      ∃ new, bundleUnitsLoop iname bid u0 s0 units idxs = units ++ new ∧
        new.length ≤ idxs.length ∧
        ∀ w ∈ new,
          (∃ i ∈ idxs, w.unit_no = "No." ++ toString (u0 + i) ∧
            w.serial_no = pad6 (s0 + i)) ∧
          ∀ v ∈ units, v.unit_no ≠ w.unit_no ∧ v.serial_no ≠ w.serial_no := by
  intro idxs
  induction idxs with
  | nil =>
    intro units
    exact ⟨[], by simp [bundleUnitsLoop], by simp, by simp⟩
  | cons i is ih =>
    intro units
    have hstep : bundleUnitsLoop iname bid u0 s0 units (i :: is) =
        bundleUnitsLoop iname bid u0 s0
          (bundleStep iname bid units ("No." ++ toString (u0 + i)) (pad6 (s0 + i)))
          is := rfl
    cases hc : units.any (fun u =>
        u.unit_no == ("No." ++ toString (u0 + i)) || u.serial_no == pad6 (s0 + i))
    · have hs : bundleStep iname bid units ("No." ++ toString (u0 + i)) (pad6 (s0 + i)) =
          units ++ [⟨"No." ++ toString (u0 + i), pad6 (s0 + i), some iname, some bid⟩] := by
        simp only [bundleStep, hc]
        simp
      rw [hstep, hs]
      obtain ⟨new, h1, h2, h3⟩ := ih
        (units ++ [⟨"No." ++ toString (u0 + i), pad6 (s0 + i), some iname, some bid⟩])
      refine ⟨⟨"No." ++ toString (u0 + i), pad6 (s0 + i), some iname, some bid⟩ :: new,
        ?_, ?_, ?_⟩
      · rw [h1]
        simp
      · simpa using Nat.succ_le_succ h2
      · intro w hw
        rcases List.mem_cons.mp hw with rfl | hw2
        · refine ⟨⟨i, List.mem_cons_self _ _, rfl, rfl⟩, ?_⟩
          intro v hv
          have hall := List.any_eq_false.mp hc v hv
          constructor
          · intro heq
            exact hall (by rw [Bool.or_eq_true]; exact Or.inl (beq_iff_eq.mpr heq))
          · intro heq
            exact hall (by rw [Bool.or_eq_true]; exact Or.inr (beq_iff_eq.mpr heq))
        · obtain ⟨⟨i2, hi2, hp⟩, hfresh⟩ := h3 w hw2
          exact ⟨⟨i2, List.mem_cons_of_mem _ hi2, hp⟩,
            fun v hv => hfresh v (List.mem_append_left _ hv)⟩
    · have hs : bundleStep iname bid units ("No." ++ toString (u0 + i)) (pad6 (s0 + i)) =
          units := by
        simp only [bundleStep, hc]
        simp
      rw [hstep, hs]
      obtain ⟨new, h1, h2, h3⟩ := ih units
      refine ⟨new, h1, le_trans h2 (Nat.le_succ _), ?_⟩
      intro w hw
      obtain ⟨⟨i2, hi2, hp⟩, hfresh⟩ := h3 w hw
      exact ⟨⟨i2, List.mem_cons_of_mem _ hi2, hp⟩, hfresh⟩

/-- C7: bundle provisioning appends at most `quantity` new registry rows;
every appended row is one of the generated pairs
`("No." + (uStart+i), zero-padded (sStart+i))` with `i < quantity` and
collides with no pre-existing `unit_no` or `serial_no` (conflicting pairs
are skipped silently, with no error and no substitute); the ledger and
returns log are untouched.  Concretely, from the empty state,
`createBundle("Radio", …, 3, 1, 1)` yields exactly units `No.1..No.3`
with serials `000001..000003`, all listed as available. -/
theorem createBundle_characterization :
    (∀ (db : DB) (iname : String) (q u0 s0 : Nat),
      ∃ new, (admin_add_equipment_bundle db iname q u0 s0).units = db.units ++ new ∧
        new.length ≤ q ∧
        (∀ w ∈ new,
          (∃ i, i < q ∧ w.unit_no = "No." ++ toString (u0 + i) ∧
            w.serial_no = pad6 (s0 + i)) ∧
          ∀ v ∈ db.units, v.unit_no ≠ w.unit_no ∧ v.serial_no ≠ w.serial_no) ∧
        (admin_add_equipment_bundle db iname q u0 s0).rental = db.rental ∧
        (admin_add_equipment_bundle db iname q u0 s0).returns_log = db.returns_log) ∧
    (admin_add_equipment_bundle emptyDB "Radio" 3 1 1).units =
      [⟨"No.1", "000001", some "Radio", some 1⟩,
        ⟨"No.2", "000002", some "Radio", some 1⟩,
        ⟨"No.3", "000003", some "Radio", some 1⟩] ∧
    listAvailable (admin_add_equipment_bundle emptyDB "Radio" 3 1 1) =
      [⟨"No.1", "000001", some "Radio", some 1⟩,
        ⟨"No.2", "000002", some "Radio", some 1⟩,
        ⟨"No.3", "000003", some "Radio", some 1⟩] := by
  refine ⟨?_, by decide, by decide⟩
  intro db iname q u0 s0
  by_cases hq : q = 0
  · subst hq
    exact ⟨[], by simp [admin_add_equipment_bundle], by simp, by simp,
      by simp [admin_add_equipment_bundle], by simp [admin_add_equipment_bundle]⟩
  · obtain ⟨new, h1, h2, h3⟩ :=
      bundleUnitsLoop_exists iname db.next_bundle_id u0 s0 (List.range q) db.units
    refine ⟨new, ?_, ?_, ?_, admin_add_equipment_bundle_rental db iname q u0 s0,
      admin_add_equipment_bundle_returns_log db iname q u0 s0⟩
    · simp only [admin_add_equipment_bundle, if_neg hq]
      exact h1
    · simpa using h2
    · intro w hw
      obtain ⟨⟨i, hi, hp⟩, hfresh⟩ := h3 w hw
      exact ⟨⟨i, List.mem_range.mp hi, hp⟩, hfresh⟩

end HjncRental
